import Mathlib

/-!
Shallow embedding of the UDP transport-and-dispatch core of the Yaskawa
Ethernet client (`src/udp/client.cpp`).  The client owns a registry mapping
8-bit request ids to handler entries, a socket open/closed flag, and an
optional global error sink.  The receive loop (`receive` / `onReceive`)
decodes each inbound datagram, looks up the registry and dispatches to the
matched handler; its observable behaviour is recorded as a list of events.
Handler callbacks are defunctionalized: each stored callback carries an
identity tag and a description of the registry mutation it performs when
invoked (nothing, removing its own entry, or removing another entry), which
is all the claims need.
-/

namespace YaskawaUdp

/-- Request identifiers are 8-bit unsigned integers (`std::uint8_t`). -/
abbrev RequestId := Nat

/-- Decoded response header; the core only interprets the `request_id` field
used for correlation (`header->request_id` in `onReceive`). -/
structure ResponseHeader where
  request_id : RequestId
  deriving DecidableEq, Repr

/-- Error categories observable through the global error sink:
transport errors (an `std::errc` value forwarded by `onReceive`),
decode failures from the header codec, and `errc::unknown_request`. -/
inductive ErrCode where
  | transport (code : Nat)
  | malformed_message
  | unknown_request
  deriving DecidableEq, Repr

/-- An error value as delivered to the sink: a code plus a message string. -/
structure Error where
  code : ErrCode
  message : String
  deriving DecidableEq, Repr

/-- Registry mutation a callback performs during its own invocation.
`selfRemove` models a handler calling `removeHandler` on its own token from
inside its invocation; `removeId` removes some other entry. -/
inductive CbBehavior where
  | plain
  | selfRemove
  | removeId (id : RequestId)
  deriving DecidableEq, Repr

/-- A stored callback (`std::function` value): an identity tag, so traces can
record which callback was invoked, plus its registry-mutating behaviour. -/
structure Callback where
  cbId : Nat
  behavior : CbBehavior
  deriving DecidableEq, Repr

/-- A registry entry: `{std::chrono::steady_clock::now(), handler}` from
`Client::registerHandler`. -/
structure HandlerEntry where
  timestamp : Nat
  on_reply : Callback
  deriving DecidableEq, Repr

/-- The token returned by `registerHandler`: an iterator to the inserted map
entry, modelled by the entry's stable key. -/
abbrev HandlerToken := RequestId

/-- Client state: the `requests_` map (association list, keys unique by the
registry invariant), whether `socket_` is open, and whether the optional
global `on_error` sink is installed. -/
structure ClientState where
  requests : List (RequestId × HandlerEntry)
  socketOpen : Bool
  on_error : Bool
  deriving DecidableEq, Repr

/-- Observable events of one callback chain: the connect completion callback
firing, a report to the global error sink, a handler invocation with its
arguments, and `socket_.async_receive` being issued. -/
inductive Event where
  | connectDone (error : Option Error)
  | errorReported (e : Error)
  | invoked (cbId : Nat) (header : ResponseHeader) (payload : List Nat)
  | receiveIssued
  deriving DecidableEq, Repr

/-- Completion of one asynchronous receive, as seen by `onReceive`:
cancellation (`std::errc::operation_canceled`), any other transport error, or
a successfully received datagram. -/
inductive RecvResult where
  | canceled
  | transportError (code : Nat)
  | ok (bytes : List Nat)
  deriving DecidableEq, Repr

/-- First entry with the given key (`std::map::find`). -/
def findEntry : List (RequestId × HandlerEntry) → RequestId → Option HandlerEntry
  | [], _ => none
  | p :: rest, id => if p.1 = id then some p.2 else findEntry rest id

/-- `std::map::insert`: returns the (possibly unchanged) map and whether the
insertion happened; an already-present key leaves the map untouched. -/
def mapInsert (l : List (RequestId × HandlerEntry)) (id : RequestId) (e : HandlerEntry) :
    List (RequestId × HandlerEntry) × Bool :=
  match findEntry l id with
  | some _ => (l, false)
  | none => (l ++ [(id, e)], true)

/-- `std::map::erase` by key. -/
def eraseKey (l : List (RequestId × HandlerEntry)) (id : RequestId) :
    List (RequestId × HandlerEntry) :=
  l.filter (fun p => !(p.1 = id : Bool))

/-- `Client::registerHandler`: inserts `{request_id, {now(), handler}}` into
`requests_`; if the insertion did not take place (duplicate key) it throws a
`std::logic_error`, modelled by the `Except.error` branch, and the map is
left as `insert` left it (unchanged).  `now` stands for the registration
timestamp `std::chrono::steady_clock::now()`. -/
def registerHandler (s : ClientState) (now : Nat) (request_id : RequestId)
    (handler : Callback) : ClientState × Except String HandlerToken :=
  let result := mapInsert s.requests request_id ⟨now, handler⟩
  if result.2 = false then
    ({ s with requests := result.1 },
     Except.error ("request_id " ++ Nat.repr request_id ++
       " is already taken, can not register handler"))
  else
    ({ s with requests := result.1 }, Except.ok request_id)

/-- `Client::removeHandler`: erases the entry the token refers to. -/
def removeHandler (s : ClientState) (token : HandlerToken) : ClientState :=
  { s with requests := eraseKey s.requests token }

/-- `Client::close`: `socket_.close()`. -/
def close (s : ClientState) : ClientState :=
  { s with socketOpen := false }

/-- Modelled from the spec: `decodeResponseHeader` lives in `udp/protocol.hpp`,
which is not part of the sources; spec sections 2 and 6 describe the codec as
turning raw datagram bytes into a structured response header containing a
1-byte request identifier plus the remaining payload view, or signalling a
decode failure.  We model the minimal such codec: the first byte is the
request id and the rest is the payload; an empty datagram fails to decode. -/
def decodeResponseHeader : List Nat → Except Error (ResponseHeader × List Nat)
  | [] => Except.error ⟨ErrCode.malformed_message, "message too short"⟩
  | b :: rest => Except.ok (⟨b % 256⟩, rest)

/-- Effect of invoking a callback: the registry mutation it performs
(`removeHandler` on its own token, on another token, or nothing). -/
def runCallback (ownId : RequestId) (cb : Callback) (s : ClientState) : ClientState :=
  match cb.behavior with
  | CbBehavior.plain => s
  | CbBehavior.selfRemove => removeHandler s ownId
  | CbBehavior.removeId i => removeHandler s i

/-- Report to the optional global sink: `if (on_error) on_error(...)`. -/
def reportError (s : ClientState) (e : Error) : List Event :=
  if s.on_error then [Event.errorReported e] else []

/-- `Client::receive`: if the socket is closed, halt the loop (issue
nothing); otherwise issue `socket_.async_receive` into the scratch buffer. -/
def receive (s : ClientState) : List Event :=
  if s.socketOpen then [Event.receiveIssued] else []

/-- `Client::onReceive`: cancellation stops the loop silently; any other
transport error is reported and the receive re-issued; otherwise the header
is decoded, the registry consulted, and the matched handler invoked with a
copy of its callback before the receive is re-issued. -/
def onReceive (s : ClientState) (r : RecvResult) : ClientState × List Event :=
  match r with
  | RecvResult.canceled => (s, [])
  | RecvResult.transportError code =>
      (s, reportError s ⟨ErrCode.transport code, ""⟩ ++ receive s)
  | RecvResult.ok bytes =>
      match decodeResponseHeader bytes with
      | Except.error e => (s, reportError s e ++ receive s)
      | Except.ok (header, message) =>
          match findEntry s.requests header.request_id with
          | none =>
              (s, reportError s ⟨ErrCode.unknown_request,
                    "no handler for request id " ++ Nat.repr header.request_id⟩ ++
                  receive s)
          | some entry =>
              let callback := entry.on_reply
              let s2 := runCallback header.request_id callback s
              (s2, Event.invoked callback.cbId header message :: receive s2)

/-- `Client::onConnect`: invoke the completion callback with the error, then
start the receive loop only when there was no error. -/
def onConnect (s : ClientState) (error : Option Error) : List Event :=
  Event.connectDone error :: (if error = none then receive s else [])

/-- Drive the receive loop over a list of pending completions: a completion
is consumed only while a receive is outstanding, i.e. as long as the
previous step re-issued one. -/
def hasReceiveIssued (evs : List Event) : Bool :=
  evs.any (fun e => e = Event.receiveIssued)

/-- Run the loop from a state with one receive outstanding. -/
def runLoop (s : ClientState) : List RecvResult → List Event
  | [] => []
  | r :: rs =>
      let res := onReceive s r
      res.2 ++ (if hasReceiveIssued res.2 then runLoop res.1 rs else [])

/-- A sequence of `registerHandler` calls, stopping at the first failure. -/
def registerAll (s : ClientState) (now : Nat) :
    List (RequestId × Callback) → Option ClientState
  | [] => some s
  | (id, cb) :: rest =>
      match registerHandler s now id cb with
      | (s2, Except.ok _) => registerAll s2 now rest
      | (_, Except.error _) => none

/-- Recognizer for handler-invocation events. -/
def isInvokedEvent : Event → Bool
  | Event.invoked _ _ _ => true
  | _ => false

/-- Recognizer for error-sink events. -/
def isErrorReportedEvent : Event → Bool
  | Event.errorReported _ => true
  | _ => false

/-- Recognizer for receive-issue events. -/
def isReceiveIssuedEvent : Event → Bool
  | Event.receiveIssued => true
  | _ => false

/-- Recognizer for connect-completion events. -/
def isConnectDoneEvent : Event → Bool
  | Event.connectDone _ => true
  | _ => false

/-- Key lookup after erasing a key: the erased key is gone, all others are
untouched. -/
theorem findEntry_eraseKey (l : List (RequestId × HandlerEntry)) (id i : RequestId) :
    findEntry (eraseKey l id) i = if i = id then none else findEntry l i := by
  induction l with
  | nil => simp [findEntry, eraseKey]
  | cons p rest ih =>
      by_cases h1 : p.1 = id <;> by_cases h2 : p.1 = i <;>
        simp_all [eraseKey, findEntry, List.filter_cons]

/-- Key lookup distributes over list append, preferring the first list. -/
theorem findEntry_append (l1 l2 : List (RequestId × HandlerEntry)) (i : RequestId) :
    findEntry (l1 ++ l2) i =
      match findEntry l1 i with
      | some e => some e
      | none => findEntry l2 i := by
  induction l1 with
  | nil => simp [findEntry]
  | cons p rest ih => by_cases h : p.1 = i <;> simp [findEntry, h, ih]

/-- Invoking a callback never reopens or closes the socket: it only mutates
the registry. -/
theorem runCallback_socketOpen (ownId : RequestId) (cb : Callback) (s : ClientState) :
    (runCallback ownId cb s).socketOpen = s.socketOpen := by
  cases cb with
  | mk cbId behavior => cases behavior <;> rfl

/-- The receive step never emits a handler-invocation event. -/
theorem filter_invoked_receive (s : ClientState) :
    (receive s).filter isInvokedEvent = [] := by
  by_cases h : s.socketOpen = true <;> simp [receive, h, isInvokedEvent]

/-- The receive step never emits an error-sink event. -/
theorem filter_error_receive (s : ClientState) :
    (receive s).filter isErrorReportedEvent = [] := by
  by_cases h : s.socketOpen = true <;> simp [receive, h, isErrorReportedEvent]

/-- Every event of the receive step is a receive-issue event. -/
theorem filter_receiveIssued_receive (s : ClientState) :
    (receive s).filter isReceiveIssuedEvent = receive s := by
  by_cases h : s.socketOpen = true <;> simp [receive, h, isReceiveIssuedEvent]

/-- C6: a receive completion signalling cancellation stops the loop with no
error report, no handler invocation, no re-issued receive, and an unchanged
state: cancellation is benign termination. -/
theorem canceled_stops_silently (s : ClientState) :
    onReceive s RecvResult.canceled = (s, []) := rfl

/-- Shared dispatch lemma: on a decodable datagram with a registered id, the
event trace contains exactly one invocation event, carrying the matched
entry's callback, the decoded header and the remaining payload. -/
theorem dispatch_filter_invoked (s : ClientState) (bytes : List Nat)
    (header : ResponseHeader) (payload : List Nat) (entry : HandlerEntry)
    (hdec : decodeResponseHeader bytes = Except.ok (header, payload))
    (hfind : findEntry s.requests header.request_id = some entry) :
    ((onReceive s (RecvResult.ok bytes)).2).filter isInvokedEvent =
      [Event.invoked entry.on_reply.cbId header payload] := by
  simp only [onReceive, hdec, hfind]
  simp [List.filter_cons, isInvokedEvent, filter_invoked_receive]

/-- C1: a well-formed datagram whose decoded request id is registered makes
the dispatcher invoke exactly that entry's callback, exactly once, with the
decoded header and the remaining payload; no other callback is invoked
during that dispatch. -/
theorem dispatch_invokes_matched_once (s : ClientState) (bytes : List Nat)
    (header : ResponseHeader) (payload : List Nat) (entry : HandlerEntry)
    (hdec : decodeResponseHeader bytes = Except.ok (header, payload))
    (hfind : findEntry s.requests header.request_id = some entry) :
    ((onReceive s (RecvResult.ok bytes)).2).filter isInvokedEvent =
      [Event.invoked entry.on_reply.cbId header payload] :=
  dispatch_filter_invoked s bytes header payload entry hdec hfind

/-- Witness for C1 at a concrete state and datagram. -/
theorem dispatch_invokes_matched_once_witness :
    ((onReceive ⟨[(5, ⟨0, ⟨7, CbBehavior.plain⟩⟩)], true, true⟩
        (RecvResult.ok [5, 1, 2])).2).filter isInvokedEvent =
      [Event.invoked 7 ⟨5⟩ [1, 2]] :=
  dispatch_invokes_matched_once ⟨[(5, ⟨0, ⟨7, CbBehavior.plain⟩⟩)], true, true⟩
    [5, 1, 2] ⟨5⟩ [1, 2] ⟨0, ⟨7, CbBehavior.plain⟩⟩ rfl rfl

/-- C2: registering a request id that is already present fails with the
duplicate-id error (thrown as a logic error in the source) and leaves the
whole state, in particular the previously registered entry, unchanged. -/
theorem duplicate_register_rejected (s : ClientState) (now : Nat)
    (request_id : RequestId) (handler : Callback) (entry : HandlerEntry)
    (hfind : findEntry s.requests request_id = some entry) :
    registerHandler s now request_id handler =
      (s, Except.error ("request_id " ++ Nat.repr request_id ++
        " is already taken, can not register handler")) := by
  simp [registerHandler, mapInsert, hfind]

/-- Witness for C2: registering id 3 twice fails and keeps the state. -/
theorem duplicate_register_rejected_witness :
    registerHandler ⟨[(3, ⟨5, ⟨1, CbBehavior.plain⟩⟩)], true, true⟩ 9 3
        ⟨2, CbBehavior.plain⟩ =
      (⟨[(3, ⟨5, ⟨1, CbBehavior.plain⟩⟩)], true, true⟩,
       Except.error ("request_id " ++ Nat.repr 3 ++
         " is already taken, can not register handler")) :=
  duplicate_register_rejected ⟨[(3, ⟨5, ⟨1, CbBehavior.plain⟩⟩)], true, true⟩ 9 3
    ⟨2, CbBehavior.plain⟩ ⟨5, ⟨1, CbBehavior.plain⟩⟩ rfl

/-- C3: because the dispatcher copies the callback out of its entry before
invoking it, a handler that removes its own registration from inside its own
invocation still runs to completion (its invocation event carries the
original callback), and the registry no longer contains the entry once the
dispatch returns. -/
theorem self_removal_safe (s : ClientState) (bytes : List Nat)
    (header : ResponseHeader) (payload : List Nat) (entry : HandlerEntry)
    (hdec : decodeResponseHeader bytes = Except.ok (header, payload))
    (hfind : findEntry s.requests header.request_id = some entry)
    (hb : entry.on_reply.behavior = CbBehavior.selfRemove) :
    findEntry (onReceive s (RecvResult.ok bytes)).1.requests header.request_id = none ∧
    ((onReceive s (RecvResult.ok bytes)).2).filter isInvokedEvent =
      [Event.invoked entry.on_reply.cbId header payload] := by
  constructor
  · simp only [onReceive, hdec, hfind]
    simp [runCallback, hb, removeHandler, findEntry_eraseKey]
  · exact dispatch_filter_invoked s bytes header payload entry hdec hfind

/-- Witness for C3 with a self-removing handler registered at id 4. -/
theorem self_removal_safe_witness :
    findEntry (onReceive ⟨[(4, ⟨0, ⟨9, CbBehavior.selfRemove⟩⟩)], true, true⟩
        (RecvResult.ok [4, 8])).1.requests 4 = none ∧
    ((onReceive ⟨[(4, ⟨0, ⟨9, CbBehavior.selfRemove⟩⟩)], true, true⟩
        (RecvResult.ok [4, 8])).2).filter isInvokedEvent =
      [Event.invoked 9 ⟨4⟩ [8]] :=
  self_removal_safe ⟨[(4, ⟨0, ⟨9, CbBehavior.selfRemove⟩⟩)], true, true⟩
    [4, 8] ⟨4⟩ [8] ⟨0, ⟨9, CbBehavior.selfRemove⟩⟩ rfl rfl rfl

/-- C4: with a sink installed and the socket open, a non-cancellation
transport error and a datagram whose header fails to decode each produce
exactly one error report to the sink followed by a re-issued receive, with
the state unchanged: no single bad or stray datagram terminates the
stream. -/
theorem transient_errors_reported_then_reissue (s : ClientState)
    (hsink : s.on_error = true) (hopen : s.socketOpen = true) :
    (∀ code, onReceive s (RecvResult.transportError code) =
        (s, [Event.errorReported ⟨ErrCode.transport code, ""⟩,
             Event.receiveIssued])) ∧
    (∀ bytes e, decodeResponseHeader bytes = Except.error e →
        onReceive s (RecvResult.ok bytes) =
          (s, [Event.errorReported e, Event.receiveIssued])) := by
  constructor
  · intro code
    simp [onReceive, reportError, receive, hsink, hopen]
  · intro bytes e hdec
    simp only [onReceive, hdec]
    simp [reportError, receive, hsink, hopen]

/-- Witness for C4 at a concrete transport error and an undecodable (empty)
datagram. -/
theorem transient_errors_reported_then_reissue_witness :
    onReceive ⟨[], true, true⟩ (RecvResult.transportError 104) =
      (⟨[], true, true⟩,
       [Event.errorReported ⟨ErrCode.transport 104, ""⟩, Event.receiveIssued]) ∧
    onReceive ⟨[], true, true⟩ (RecvResult.ok []) =
      (⟨[], true, true⟩,
       [Event.errorReported ⟨ErrCode.malformed_message, "message too short"⟩,
        Event.receiveIssued]) :=
  ⟨(transient_errors_reported_then_reissue ⟨[], true, true⟩ rfl rfl).1 104,
   (transient_errors_reported_then_reissue ⟨[], true, true⟩ rfl rfl).2 []
     ⟨ErrCode.malformed_message, "message too short"⟩ rfl⟩

/-- C5: a well-formed datagram whose decoded id matches no registered entry
invokes no handler; with a sink installed and the socket open, it produces
exactly one unknown-request notification carrying that id, followed by a
re-issued receive, leaving the state unchanged. -/
theorem unknown_request_reported_once (s : ClientState) (bytes : List Nat)
    (header : ResponseHeader) (payload : List Nat)
    (hdec : decodeResponseHeader bytes = Except.ok (header, payload))
    (hfind : findEntry s.requests header.request_id = none)
    (hsink : s.on_error = true) (hopen : s.socketOpen = true) :
    onReceive s (RecvResult.ok bytes) =
      (s, [Event.errorReported ⟨ErrCode.unknown_request,
             "no handler for request id " ++ Nat.repr header.request_id⟩,
           Event.receiveIssued]) := by
  simp only [onReceive, hdec, hfind]
  simp [reportError, receive, hsink, hopen]

/-- Witness for C5: an empty registry receives a datagram with id 6. -/
theorem unknown_request_reported_once_witness :
    onReceive ⟨[], true, true⟩ (RecvResult.ok [6, 1]) =
      (⟨[], true, true⟩,
       [Event.errorReported ⟨ErrCode.unknown_request,
          "no handler for request id " ++ Nat.repr 6⟩, Event.receiveIssued]) :=
  unknown_request_reported_once ⟨[], true, true⟩ [6, 1] ⟨6⟩ [1] rfl rfl rfl rfl

/-- C7: after `close`, the open-check in `receive` halts the loop instead of
reissuing; no completion of any kind can re-issue a receive on the closed
socket, and processing the cancellation of the in-flight receive followed by
any injected completions yields no events at all: nothing is dispatched and
the sink is never notified after close. -/
theorem close_halts_loop (s : ClientState) :
    receive (close s) = [] ∧
    (∀ r, ((onReceive (close s) r).2).filter isReceiveIssuedEvent = []) ∧
    (∀ rs, runLoop (close s) (RecvResult.canceled :: rs) = []) := by
  refine ⟨by simp [receive, close], ?_, ?_⟩
  · intro r
    cases r with
    | canceled => simp [onReceive]
    | transportError code =>
        simp [onReceive, reportError, receive, close, isReceiveIssuedEvent,
          isErrorReportedEvent, List.filter_cons]
    | ok bytes =>
        cases hdec : decodeResponseHeader bytes with
        | error e =>
            simp only [onReceive, hdec]
            simp [reportError, receive, close, isReceiveIssuedEvent, List.filter_cons]
        | ok hp =>
            obtain ⟨header, payload⟩ := hp
            cases hfind : findEntry (close s).requests header.request_id with
            | none =>
                simp only [onReceive, hdec, hfind]
                simp [reportError, receive, close, isReceiveIssuedEvent,
                  List.filter_cons]
            | some entry =>
                simp only [onReceive, hdec, hfind]
                have hso : (runCallback header.request_id entry.on_reply
                    (close s)).socketOpen = false :=
                  (runCallback_socketOpen _ _ _).trans rfl
                simp [receive, hso, isReceiveIssuedEvent, List.filter_cons]
  · intro rs
    simp [runLoop, onReceive, hasReceiveIssued]

/-- C8: with the socket opened by a successful connect, `onConnect` fires
the completion callback with the connect error exactly once, and the receive
loop is started if and only if the connect reported no error. -/
theorem connect_callback_once_loop_iff_success (s : ClientState)
    (error : Option Error) (hopen : s.socketOpen = true) :
    (onConnect s error).filter isConnectDoneEvent = [Event.connectDone error] ∧
    (Event.receiveIssued ∈ onConnect s error ↔ error = none) := by
  cases error with
  | none => simp [onConnect, receive, hopen, isConnectDoneEvent, List.filter_cons]
  | some e => simp [onConnect, receive, isConnectDoneEvent, List.filter_cons]

/-- Witness for C8 at both a successful and a failed connect. -/
theorem connect_callback_once_loop_iff_success_witness :
    ((onConnect ⟨[], true, true⟩ none).filter isConnectDoneEvent =
        [Event.connectDone none] ∧
      (Event.receiveIssued ∈ onConnect ⟨[], true, true⟩ none ↔
        (none : Option Error) = none)) ∧
    ((onConnect ⟨[], true, true⟩
          (some ⟨ErrCode.transport 110, ""⟩)).filter isConnectDoneEvent =
        [Event.connectDone (some ⟨ErrCode.transport 110, ""⟩)] ∧
      (Event.receiveIssued ∈
          onConnect ⟨[], true, true⟩ (some ⟨ErrCode.transport 110, ""⟩) ↔
        some ⟨ErrCode.transport 110, ""⟩ = (none : Option Error))) :=
  ⟨connect_callback_once_loop_iff_success ⟨[], true, true⟩ none rfl,
   connect_callback_once_loop_iff_success ⟨[], true, true⟩
     (some ⟨ErrCode.transport 110, ""⟩) rfl⟩

/-- C10: with no sink installed and the socket open, a transport error, a
decode failure and an unknown-request datagram are each silently discarded:
no notification, no handler invocation, an unchanged state, and the next
receive is re-issued exactly as it would be with a sink installed. -/
theorem no_sink_silent_discard (s : ClientState)
    (hsink : s.on_error = false) (hopen : s.socketOpen = true) :
    (∀ code, onReceive s (RecvResult.transportError code) =
        (s, [Event.receiveIssued]) ∧
      ((onReceive s (RecvResult.transportError code)).2).filter
          isReceiveIssuedEvent =
        ((onReceive { s with on_error := true }
            (RecvResult.transportError code)).2).filter isReceiveIssuedEvent) ∧
    (∀ bytes e, decodeResponseHeader bytes = Except.error e →
        onReceive s (RecvResult.ok bytes) = (s, [Event.receiveIssued]) ∧
      ((onReceive s (RecvResult.ok bytes)).2).filter isReceiveIssuedEvent =
        ((onReceive { s with on_error := true }
            (RecvResult.ok bytes)).2).filter isReceiveIssuedEvent) ∧
    (∀ bytes header payload,
        decodeResponseHeader bytes = Except.ok (header, payload) →
        findEntry s.requests header.request_id = none →
        onReceive s (RecvResult.ok bytes) = (s, [Event.receiveIssued]) ∧
      ((onReceive s (RecvResult.ok bytes)).2).filter isReceiveIssuedEvent =
        ((onReceive { s with on_error := true }
            (RecvResult.ok bytes)).2).filter isReceiveIssuedEvent) := by
  refine ⟨?_, ?_, ?_⟩
  · intro code
    constructor
    · simp [onReceive, reportError, receive, hsink, hopen]
    · simp [onReceive, reportError, receive, hsink, hopen,
        isReceiveIssuedEvent, List.filter_cons]
  · intro bytes e hdec
    constructor
    · simp only [onReceive, hdec]
      simp [reportError, receive, hsink, hopen]
    · simp only [onReceive, hdec]
      simp [reportError, receive, hsink, hopen, isReceiveIssuedEvent,
        List.filter_cons]
  · intro bytes header payload hdec hfind
    constructor
    · simp only [onReceive, hdec, hfind]
      simp [reportError, receive, hsink, hopen]
    · have hfind2 : findEntry ({ s with on_error := true } : ClientState).requests
          header.request_id = none := hfind
      simp only [onReceive, hdec, hfind, hfind2]
      simp [reportError, receive, hsink, hopen, isReceiveIssuedEvent,
        List.filter_cons]

/-- Witness for C10 at a sink-less state: transport error, empty datagram and
unknown id 2 are all silent but keep the loop alive. -/
theorem no_sink_silent_discard_witness :
    onReceive ⟨[], true, false⟩ (RecvResult.transportError 104) =
      (⟨[], true, false⟩, [Event.receiveIssued]) ∧
    onReceive ⟨[], true, false⟩ (RecvResult.ok []) =
      (⟨[], true, false⟩, [Event.receiveIssued]) ∧
    onReceive ⟨[], true, false⟩ (RecvResult.ok [2, 9]) =
      (⟨[], true, false⟩, [Event.receiveIssued]) :=
  ⟨((no_sink_silent_discard ⟨[], true, false⟩ rfl rfl).1 104).1,
   ((no_sink_silent_discard ⟨[], true, false⟩ rfl rfl).2.1 []
      ⟨ErrCode.malformed_message, "message too short"⟩ rfl).1,
   ((no_sink_silent_discard ⟨[], true, false⟩ rfl rfl).2.2 [2, 9] ⟨2⟩ [9]
      rfl rfl).1⟩

/-- Registering a fresh id appends the new entry and returns its token. -/
theorem registerHandler_fresh (s : ClientState) (now : Nat) (id : RequestId)
    (cb : Callback) (h : findEntry s.requests id = none) :
    registerHandler s now id cb =
      ({ s with requests := s.requests ++ [(id, ⟨now, cb⟩)] }, Except.ok id) := by
  simp [registerHandler, mapInsert, h]

/-- Registry entries produced by registering each pair with timestamp `now`. -/
def pairEntries (now : Nat) (pairs : List (RequestId × Callback)) :
    List (RequestId × HandlerEntry) :=
  pairs.map (fun p => (p.1, ⟨now, p.2⟩))

/-- Registering a list of pairwise-distinct fresh ids succeeds and appends
one entry per pair, in order. -/
theorem registerAll_eq (now : Nat) (pairs : List (RequestId × Callback)) :
    ∀ s : ClientState, (pairs.map Prod.fst).Nodup →
      (∀ p ∈ pairs, findEntry s.requests p.1 = none) →
      registerAll s now pairs =
        some { s with requests := s.requests ++ pairEntries now pairs } := by
  induction pairs with
  | nil =>
      intro s _ _
      simp [registerAll, pairEntries]
  | cons q rest ih =>
      intro s hnodup hfresh
      obtain ⟨id, cb⟩ := q
      have hnodup2 : (id :: rest.map Prod.fst).Nodup := by
        simpa only [List.map_cons] using hnodup
      have hnd := List.nodup_cons.mp hnodup2
      have hf : findEntry s.requests id = none :=
        hfresh (id, cb) (List.mem_cons_self _ _)
      have hfresh2 : ∀ p ∈ rest,
          findEntry (s.requests ++ [(id, (⟨now, cb⟩ : HandlerEntry))]) p.1 = none := by
        intro p hp
        rw [findEntry_append, hfresh p (List.mem_cons_of_mem _ hp)]
        have hne : ¬(id = p.1) := by
          intro he
          exact hnd.1 (he ▸ List.mem_map_of_mem Prod.fst hp)
        simp [findEntry, hne]
      rw [registerAll, registerHandler_fresh s now id cb hf]
      show registerAll { s with requests := s.requests ++ [(id, (⟨now, cb⟩ : HandlerEntry))] } now rest = some { s with requests := s.requests ++ pairEntries now ((id, cb) :: rest) }
      rw [ih _ hnd.2 hfresh2]
      simp [pairEntries, List.append_assoc]

/-- Lookup of a registered pair in the appended block of fresh entries. -/
theorem findEntry_pairEntries (now : Nat) (pairs : List (RequestId × Callback))
    (hnodup : (pairs.map Prod.fst).Nodup) (p : RequestId × Callback)
    (hp : p ∈ pairs) :
    findEntry (pairEntries now pairs) p.1 = some ⟨now, p.2⟩ := by
  induction pairs with
  | nil => cases hp
  | cons q rest ih =>
      have hnodup2 : (q.1 :: rest.map Prod.fst).Nodup := by
        simpa only [List.map_cons] using hnodup
      have hnd := List.nodup_cons.mp hnodup2
      rcases List.mem_cons.mp hp with h | h
      · subst h
        simp [pairEntries, findEntry]
      · have hne : ¬(q.1 = p.1) := by
          intro he
          exact hnd.1 (he ▸ List.mem_map_of_mem Prod.fst h)
        simp only [pairEntries, List.map_cons, findEntry, hne, if_false]
        exact ih hnd.2 h

/-- C9: any sequence of `registerHandler` calls with pairwise-distinct fresh
ids succeeds in full, and `removeHandler` with one returned token deletes
exactly the entry that token refers to while every other key's lookup is
unchanged. -/
theorem distinct_register_then_remove_exact (s : ClientState) (now : Nat)
    (pairs : List (RequestId × Callback))
    (hnodup : (pairs.map Prod.fst).Nodup)
    (hfresh : ∀ p ∈ pairs, findEntry s.requests p.1 = none) :
    ∃ s2, registerAll s now pairs = some s2 ∧
      ∀ p ∈ pairs,
        findEntry s2.requests p.1 = some ⟨now, p.2⟩ ∧
        findEntry (removeHandler s2 p.1).requests p.1 = none ∧
        ∀ i, i ≠ p.1 →
          findEntry (removeHandler s2 p.1).requests i = findEntry s2.requests i := by
  refine ⟨_, registerAll_eq now pairs s hnodup hfresh, ?_⟩
  intro p hp
  refine ⟨?_, ?_, ?_⟩
  · show findEntry (s.requests ++ pairEntries now pairs) p.1 = some ⟨now, p.2⟩
    rw [findEntry_append, hfresh p hp]
    exact findEntry_pairEntries now pairs hnodup p hp
  · simp [removeHandler, findEntry_eraseKey]
  · intro i hi
    simp [removeHandler, findEntry_eraseKey, hi]

/-- Witness for C9: two distinct registrations against an empty registry. -/
theorem distinct_register_then_remove_exact_witness :
    ∃ s2, registerAll ⟨[], true, true⟩ 0
        [(1, ⟨10, CbBehavior.plain⟩), (2, ⟨11, CbBehavior.plain⟩)] = some s2 ∧
      ∀ p ∈ [(1, (⟨10, CbBehavior.plain⟩ : Callback)),
             (2, (⟨11, CbBehavior.plain⟩ : Callback))],
        findEntry s2.requests p.1 = some ⟨0, p.2⟩ ∧
        findEntry (removeHandler s2 p.1).requests p.1 = none ∧
        ∀ i, i ≠ p.1 →
          findEntry (removeHandler s2 p.1).requests i = findEntry s2.requests i :=
  distinct_register_then_remove_exact ⟨[], true, true⟩ 0
    [(1, ⟨10, CbBehavior.plain⟩), (2, ⟨11, CbBehavior.plain⟩)]
    (by decide) (fun p _ => rfl)

end YaskawaUdp
